/-
Verification of the recipe extraction pipeline (recipe_bot_eval).

Shallow embedding of the deterministic core of the pipeline:
  - recipe_models.py   : Ingredient.parse_amount, Ingredient.normalize_unit,
                         BASE_UNIT_MAPPING, _get_unit_mapping
  - response_cleanup.py: clean_llm_response
  - patches.py         : apply_patches_to_disk, apply_patches_from_analysis
  - backend/database/db.py : save_raw_recipe, update_recipe_success,
                         update_recipe_failure (record lifecycle state)
  - backend/services/analysis_service.py : analyze_recipe_error (status gate)
  - backend/recipe_parser.py : source_url stamping

Python strings are modelled as `List Char`; Python floats as `ℚ` (all the
amounts in scope are exact decimal values); Python's dynamic JSON-ish values
as the inductive `PyVal`; the patch files on disk as the structure
`PatchStore`.  Python's `re.sub` is modelled by an oracle parameter: a
function that, given pattern, replacement and text, returns the substituted
text, or `none` when the pattern is malformed (`re.error`).
-/
import Mathlib

set_option maxRecDepth 4000

/-- Python strings are modelled as lists of characters. -/
abbrev Str := List Char

/-- Whitespace characters removed by Python's `str.strip()` (the ASCII
whitespace set; exotic Unicode whitespace does not occur in this code base). -/
def isPySpace (c : Char) : Bool :=
  c = ' ' || c = '\t' || c = '\n' || c = '\r' || c = '\x0b' || c = '\x0c'

/-- Removal of the trailing run of whitespace, as in Python `str.rstrip()`. -/
def rstripPy : Str → Str
  | [] => []
  | c :: rest =>
    match rstripPy rest with
    | [] => if isPySpace c then [] else [c]
    | r => c :: r

/-- Python `str.strip()`: drop leading and trailing whitespace. -/
def pyStrip (s : Str) : Str :=
  rstripPy (s.dropWhile isPySpace)

/-- Python `str.lower()` restricted to the alphabets used by this program:
ASCII letters and the Cyrillic letters А-Я and Ё. -/
def pyLowerChar (c : Char) : Char :=
  if 'A' ≤ c ∧ c ≤ 'Z' then Char.ofNat (c.toNat + 32)
  else if 'А' ≤ c ∧ c ≤ 'Я' then Char.ofNat (c.toNat + 32)
  else if c = 'Ё' then 'ё'
  else c

/-- Python `str.lower()` on a whole string. -/
def pyLower (s : Str) : Str :=
  s.map pyLowerChar

/-- `leadEq n s` holds when `n` is a leading run of `s`
(Python `s.startswith(n)`). -/
def leadEq : Str → Str → Bool
  | [], _ => true
  | _ :: _, [] => false
  | x :: xs, y :: ys => x = y && leadEq xs ys

/-- Python's containment test `needle in haystack` on strings. -/
def containsSub (hay needle : Str) : Bool :=
  match hay with
  | [] => needle = []
  | _ :: rest => leadEq needle hay || containsSub rest needle

/-- Python `str.replace(old, new)`: all non-overlapping occurrences,
scanned left to right; an empty `old` inserts `new` at every position. -/
def pyReplace (s old new : Str) : Str :=
  match old with
  | [] =>
    match s with
    | [] => new
    | c :: rest => new ++ c :: pyReplace rest [] new
  | o :: os =>
    match s with
    | [] => []
    | c :: rest =>
      if leadEq (o :: os) (c :: rest) then new ++ pyReplace (rest.drop os.length) (o :: os) new
      else c :: pyReplace rest (o :: os) new
termination_by s.length
decreasing_by
  all_goals simp
  omega

/-- Python `str.split(sep)` for a one-character separator, keeping the
empty pieces (`"-1".split("-") == ["", "1"]`). -/
def pySplit (s : Str) (sep : Char) : List Str :=
  match s with
  | [] => [[]]
  | c :: rest =>
    if c = sep then [] :: pySplit rest sep
    else
      match pySplit rest sep with
      | h :: t => (c :: h) :: t
      | [] => [[c]]

/-- Value of a run of decimal digits. -/
def digitsToNat (ds : Str) : Nat :=
  ds.foldl (fun n c => 10 * n + (c.toNat - '0'.toNat)) 0

/-- Exponent tail of a Python float literal (after `e`/`E`). -/
def pyExpTail (base : ℚ) (r : Str) : Option ℚ :=
  let esgnNeg : Bool := match r with | '-' :: _ => true | _ => false
  let r1 : Str := match r with | '-' :: t => t | '+' :: t => t | t => t
  let ed := r1.takeWhile Char.isDigit
  if ed.isEmpty || ed.length ≠ r1.length then none
  else
    let e := digitsToNat ed
    some (if esgnNeg then base / (10 : ℚ) ^ e else base * (10 : ℚ) ^ e)

/-- Mantissa-to-value step of `pyFloat`, consuming an optional exponent. -/
def pyFloatExp (sgn : ℚ) (mant : Nat) (fracLen : Nat) (rest : Str) : Option ℚ :=
  let base : ℚ := sgn * (mant : ℚ) / ((10 : ℚ) ^ fracLen)
  match rest with
  | [] => some base
  | 'e' :: r => pyExpTail base r
  | 'E' :: r => pyExpTail base r
  | _ => none

/-- Python's `float(string)` on finite decimal literals
(`[+-]? digits [. digits]? [(e|E) [+-]? digits]?`, also `.5` and `5.`).
`inf`, `nan` and digit-group underscores never occur in the inputs this
program feeds to `float` and are not modelled; whitespace is stripped by the
callers before `float` is reached. -/
def pyFloat (s : Str) : Option ℚ :=
  let sgn : ℚ := match s with | '-' :: _ => -1 | _ => 1
  let r1 : Str := match s with | '-' :: r => r | '+' :: r => r | r => r
  let ip := r1.takeWhile Char.isDigit
  let r2 := r1.drop ip.length
  match r2 with
  | '.' :: r =>
    let fp := r.takeWhile Char.isDigit
    let r3 := r.drop fp.length
    if ip.isEmpty && fp.isEmpty then none
    else pyFloatExp sgn (digitsToNat (ip ++ fp)) fp.length r3
  | r3 =>
    if ip.isEmpty then none
    else pyFloatExp sgn (digitsToNat ip) 0 r3

/-- Python `v.replace(',', '.')`: the decimal-comma substitution of
`parse_amount` (character for character, since both sides are single
characters). -/
def commaDot (s : Str) : Str :=
  s.map (fun c => if c = ',' then '.' else c)

/-- First-match association lookup; the model of a Python `dict` is an
association list with distinct keys, in insertion order. -/
def lookupL {α : Type} : List (Str × α) → Str → Option α
  | [], _ => none
  | (k, v) :: rest, key => if k = key then some v else lookupL rest key

/-- `firstSome x y` is `x` when present, else `y`. -/
def firstSome {α : Type} (x y : Option α) : Option α :=
  match x with
  | some v => some v
  | none => y

/-- Python dict merge `{**base, **overlay}`: the keys of `base` in their
order (values replaced by the overlay value on collision), then the keys
that only the overlay has, in overlay order. -/
def dictMerge {α : Type} (base overlay : List (Str × α)) : List (Str × α) :=
  base.map (fun kv => (kv.1, (lookupL overlay kv.1).getD kv.2))
    ++ overlay.filter (fun kv => (lookupL base kv.1).isNone)

/-- The base unit vocabulary `BASE_UNIT_MAPPING` of recipe_models.py,
entry for entry and in source order (Python dicts preserve insertion
order, which the partial-match loop of `normalize_unit` iterates in). -/
def BASE_UNIT_MAPPING : List (Str × Str) :=
  [ ("г".toList, "г".toList), ("грамм".toList, "г".toList),
    ("грамма".toList, "г".toList), ("граммов".toList, "г".toList),
    ("гр".toList, "г".toList),
    ("мл".toList, "мл".toList), ("миллилитр".toList, "мл".toList),
    ("миллилитра".toList, "мл".toList), ("миллилитров".toList, "мл".toList),
    ("шт".toList, "шт".toList), ("штук".toList, "шт".toList),
    ("штука".toList, "шт".toList), ("штуки".toList, "шт".toList),
    ("ст.л".toList, "ст.л".toList), ("ст. ложка".toList, "ст.л".toList),
    ("ст. ложки".toList, "ст.л".toList), ("ст ложка".toList, "ст.л".toList),
    ("ст ложки".toList, "ст.л".toList), ("столовых ложек".toList, "ст.л".toList),
    ("столовые ложки".toList, "ст.л".toList), ("столовая ложка".toList, "ст.л".toList),
    ("ст. ложек".toList, "ст.л".toList), ("ст. лож.".toList, "ст.л".toList),
    ("ст лож.".toList, "ст.л".toList),
    ("ч.л".toList, "ч.л".toList), ("ч. ложка".toList, "ч.л".toList),
    ("ч. ложки".toList, "ч.л".toList), ("ч ложка".toList, "ч.л".toList),
    ("ч ложки".toList, "ч.л".toList), ("чайных ложек".toList, "ч.л".toList),
    ("чайные ложки".toList, "ч.л".toList), ("чайная ложка".toList, "ч.л".toList),
    ("ч. ложек".toList, "ч.л".toList), ("ч. лож.".toList, "ч.л".toList),
    ("ч лож.".toList, "ч.л".toList),
    ("чашка".toList, "чашка".toList), ("чашки".toList, "чашка".toList),
    ("чашек".toList, "чашка".toList),
    ("стакан".toList, "чашка".toList), ("стакана".toList, "чашка".toList),
    ("стаканов".toList, "чашка".toList), ("ст".toList, "чашка".toList),
    ("л".toList, "л".toList), ("литр".toList, "л".toList),
    ("литра".toList, "л".toList), ("литров".toList, "л".toList),
    ("кг".toList, "кг".toList), ("килограмм".toList, "кг".toList),
    ("килограмма".toList, "кг".toList), ("килограммов".toList, "кг".toList) ]

/-- `_get_unit_mapping`: the base vocabulary merged with the overlay read
from patches/unit_mapping.json, `{**BASE_UNIT_MAPPING, **overlay}`. -/
def _get_unit_mapping (overlay : List (Str × Str)) : List (Str × Str) :=
  dictMerge BASE_UNIT_MAPPING overlay

/-- The partial-match loop of `Ingredient.normalize_unit`: the first mapping
entry, in mapping iteration order, whose key is longer than two characters
and occurs inside the lowered input. -/
def partialLoop : List (Str × Str) → Str → Option Str
  | [], _ => none
  | (k, std) :: rest, vl =>
    if 2 < k.length ∧ containsSub vl k then some std else partialLoop rest vl

/-- `Ingredient.normalize_unit` of recipe_models.py on a string input, for a
given merged unit mapping: strip, case-fold, exact dict lookup, then the
partial-match loop, else the stripped original unchanged. -/
def normalize_unit (unit_mapping : List (Str × Str)) (v : Str) : Str :=
  let original_v := pyStrip v
  let v_lower := pyLower original_v
  match lookupL unit_mapping v_lower with
  | some std => std
  | none =>
    match partialLoop unit_mapping v_lower with
    | some std => std
    | none => original_v

/-- Unit coercion as worded by the spec (§4.3): case-fold and trim; exact
match against the mapping first; else substring-containment match against
mapping keys longer than two characters, first match in mapping order; else
the trimmed original unchanged.  Stated with `List.find?` so that the claim
theorem relates it to the source embedding `normalize_unit`. -/
def normalizeUnitSpec (m : List (Str × Str)) (u : Str) : Str :=
  let trimmed := pyStrip u
  let folded := pyLower trimmed
  match m.find? (fun kv => kv.1 == folded) with
  | some kv => kv.2
  | none =>
    match m.find? (fun kv => decide (2 < kv.1.length) && containsSub folded kv.1) with
    | some kv => kv.2
    | none => trimmed

/-- Python's dynamically typed JSON-ish values, as passed around between
`json.loads`, the pydantic pre-validators and the patch layer. -/
inductive PyVal where
  | pynone
  | bool (b : Bool)
  | int (n : Int)
  | float (q : ℚ)
  | str (s : Str)
  | list (items : List PyVal)
  | dict (entries : List (Str × PyVal))

/-- Python truthiness of a value (`bool(v)`). -/
def PyVal.truthy : PyVal → Bool
  | .pynone => false
  | .bool b => b
  | .int n => if n = 0 then false else true
  | .float q => if q = 0 then false else true
  | .str s => if s = [] then false else true
  | .list [] => false
  | .list (_ :: _) => true
  | .dict [] => false
  | .dict (_ :: _) => true

/-- The `unit` pre-validator `Ingredient.normalize_unit` on an arbitrary
value: a non-string input is returned unchanged (`if not isinstance(v, str):
return v`); a string goes through unit normalization. -/
def normalize_unit_value (unit_mapping : List (Str × Str)) : PyVal → PyVal
  | .str s => .str (normalize_unit unit_mapping s)
  | v => v

/-- Error kinds with which `Ingredient.parse_amount` can fail, told apart in
the source by the `ValueError` message:
`negative` = "Количество не может быть отрицательным" (NegativeAmount);
`unparseable` = "Не удалось распарсить количество: ..." (UnparseableAmount);
`floatConv` = a bare `float(...)` conversion error that propagates uncaught
out of the range-fallback branch; `unsupportedType` = "Неподдерживаемый тип
для количества". -/
inductive AmountError where
  | negative
  | unparseable (s : Str)
  | floatConv (s : Str)
  | unsupportedType
deriving DecidableEq

/-- The range fallback of `parse_amount`: when the two-part range attempt
raised `ValueError`, retry with the first part alone; errors raised here
(the bare `float` conversion error, or the negative-amount error) propagate
uncaught. -/
def rangeFallback (p0 : Str) : Except AmountError ℚ :=
  match pyFloat p0 with
  | none => .error (.floatConv p0)
  | some r => if r < 0 then .error .negative else .ok r

/-- The two-part range branch of `parse_amount` (`parts` of length 2), the
arguments being the stripped, comma-substituted parts: try to average both
bounds; any `ValueError` inside the attempt — unparseable first bound,
unparseable second bound, or a negative mean — falls back to the first
bound alone. -/
def rangeBranch (p0 p1 : Str) : Except AmountError ℚ :=
  match pyFloat p0, pyFloat p1 with
  | some f, some s =>
    let r := (f + s) / 2
    if r < 0 then rangeFallback p0 else .ok r
  | _, _ => rangeFallback p0

/-- The general-string branch of `parse_amount`: `float(v)`, with any
`ValueError` of the attempt — including the negative-amount error raised
inside the same `try` — converted to the unparseable-amount error. -/
def directFloat (s : Str) : Except AmountError ℚ :=
  match pyFloat s with
  | none => .error (.unparseable s)
  | some r => if r < 0 then .error (.unparseable s) else .ok r

/-- `Ingredient.parse_amount` of recipe_models.py: numbers pass with a
non-negativity check (`bool` counts as `int` in Python); strings are
stripped, "по вкусу"/empty become 0, decimal commas become dots, a
two-part hyphenated range is averaged with first-bound fallback, anything
else goes through `float`; other types are rejected. -/
def parse_amount : PyVal → Except AmountError ℚ
  | .int n => if (n : ℚ) < 0 then .error .negative else .ok (n : ℚ)
  | .float q => if q < 0 then .error .negative else .ok q
  | .bool b => .ok (if b then 1 else 0)
  | .str s0 =>
    let s1 := pyStrip s0
    if s1 = [] ∨ pyLower s1 ∈ [("по вкусу".toList : Str), "по вкусу".toList, ([] : Str)] then
      .ok 0
    else
      let s := commaDot s1
      if '-' ∈ s then
        let parts := pySplit s '-'
        if h : parts.length = 2 then
          rangeBranch (commaDot (pyStrip parts[0])) (commaDot (pyStrip parts[1]))
        else directFloat s
      else directFloat s
  | _ => .error .unsupportedType

/-- A cleanup rule from patches/cleanup_rules.json as consumed by
`clean_llm_response`: `pattern`, `replacement` and the optional `regex`
flag (absent reads as false). -/
structure CleanupRule where
  pattern : Str
  replacement : Str
  regex : Bool

/-- Oracle for Python `re.sub(pattern, replacement, text)`: `none` models a
malformed pattern (`re.error` at compile time), `some t` the substituted
text.  The embedding is parametric in this oracle, so every theorem below
holds for any behaviour of the regex engine. -/
abbrev RegexSub := Str → Str → Str → Option Str

/-- Failure kinds of `clean_llm_response`, told apart in the source by the
`ValueError` message: "Empty response from LLM" and "Response text is empty
after cleaning". -/
inductive CleanError where
  | emptyInput
  | emptyAfterCleanup
deriving DecidableEq

/-- The patch-rule loop of `clean_llm_response`: each rule in stored order;
a regex rule goes through `re.sub` with a malformed pattern skipped, a plain
rule through literal `str.replace`. -/
def applyRulesLoop (rsub : RegexSub) : List CleanupRule → Str → Str
  | [], t => t
  | r :: rest, t =>
    let t' :=
      if r.regex then
        match rsub r.pattern r.replacement t with
        | some u => u
        | none => t
      else pyReplace t r.pattern r.replacement
    applyRulesLoop rsub rest t'

/-- `clean_llm_response` of response_cleanup.py: reject empty input, strip,
drop a leading ```` ```json ```` or ```` ``` ```` marker and a trailing
```` ``` ```` marker, re-strip, run the stored cleanup rules in order,
re-strip, and reject an empty result. -/
def clean_llm_response (rsub : RegexSub) (rules : List CleanupRule)
    (response_text : Str) : Except CleanError Str :=
  if response_text = [] then .error .emptyInput
  else
    let t1 := pyStrip response_text
    let t2 :=
      if leadEq "```json".toList t1 then t1.drop 7
      else if leadEq "```".toList t1 then t1.drop 3
      else t1
    let t3 := if leadEq ("```".toList.reverse) t2.reverse then t2.take (t2.length - 3) else t2
    let t4 := pyStrip t3
    let t5 := applyRulesLoop rsub rules t4
    let t6 := pyStrip t5
    if t6 = [] then .error .emptyAfterCleanup else .ok t6

/-- Fence stripping as worded by the spec (§4.2): strip a leading
fenced-code-block marker (language-tagged or bare) and a trailing fence
marker if present, stated via `take`/`drop`. -/
def stripFencesSpec (t : Str) : Str :=
  let afterLead :=
    if t.take 7 = "```json".toList then t.drop 7
    else if t.take 3 = "```".toList then t.drop 3
    else t
  if afterLead.reverse.take 3 = "```".toList.reverse then afterLead.take (afterLead.length - 3)
  else afterLead

/-- Rule application as worded by the spec (§4.2): apply each cleanup rule
in append order, a left fold; literal substring replacement by default,
pattern substitution when flagged, malformed patterns skipped. -/
def applyRulesSpec (rsub : RegexSub) (rules : List CleanupRule) (t : Str) : Str :=
  rules.foldl
    (fun acc r =>
      if r.regex then (rsub r.pattern r.replacement acc).getD acc
      else pyReplace acc r.pattern r.replacement) t

/-- The processed text of the cleanup pass: trim, strip fences, re-trim,
apply rules in order, re-trim. -/
def cleanedText (rsub : RegexSub) (rules : List CleanupRule) (raw : Str) : Str :=
  pyStrip (applyRulesSpec rsub rules (pyStrip (stripFencesSpec (pyStrip raw))))

/-- The response normalizer as worded by the spec (§4.2): `EmptyInput` on
empty input, `EmptyAfterCleanup` iff the processed text is empty, the
processed text otherwise. -/
def cleanSpec (rsub : RegexSub) (rules : List CleanupRule) (raw : Str) : Except CleanError Str :=
  if raw.isEmpty then .error .emptyInput
  else
    let t := cleanedText rsub rules raw
    if t.isEmpty then .error .emptyAfterCleanup else .ok t

/-- The durable patch state (the three artifacts under patches/):
unit_mapping.json as a JSON object, cleanup_rules.json as a JSON list,
system_prompt_append.txt as text. -/
structure PatchStore where
  unit_mapping : List (Str × PyVal)
  cleanup_rules : List PyVal
  system_prompt_append : Str

/-- The JSON keys used by the patch layer. -/
def pattern_key : Str := "pattern".toList

/-- The replacement key of a cleanup rule. -/
def replacement_key : Str := "replacement".toList

/-- The key of the patches substructure of an analysis report. -/
def patches_key : Str := "patches".toList

/-- The unit-mapping key of a patch set. -/
def unit_mapping_key : Str := "unit_mapping".toList

/-- The cleanup-rules key of a patch set. -/
def cleanup_rules_key : Str := "cleanup_rules".toList

/-- The prompt-addendum key of a patch set. -/
def system_prompt_append_key : Str := "system_prompt_append".toList

/-- A stored cleanup-rule entry is well-formed when it is a JSON object
with both a "pattern" and a "replacement" key (`apply_patches_to_disk` and
`get_cleanup_rules` keep exactly these). -/
def wellFormedRule : PyVal → Bool
  | .dict d => (lookupL d pattern_key).isSome && (lookupL d replacement_key).isSome
  | _ => false

/-- The separator `_SEPARATOR` between appended prompt fragments. -/
def _SEPARATOR : Str := "\n\n---\n\n".toList

/-- `apply_patches_to_disk` of patches.py: dict-merge the unit-mapping
overlay, append the well-formed new cleanup rules, concatenate stripped
prompt text with the separator; each artifact only when its argument is
present (and, for the prompt, non-blank). -/
def apply_patches_to_disk (store : PatchStore)
    (unit_mapping : Option (List (Str × PyVal)))
    (cleanup_rules : Option (List PyVal))
    (system_prompt_append : Option Str) : PatchStore :=
  let s1 :=
    match unit_mapping with
    | some um => { store with unit_mapping := dictMerge store.unit_mapping um }
    | none => store
  let s2 :=
    match cleanup_rules with
    | some cr => { s1 with cleanup_rules := s1.cleanup_rules ++ cr.filter wellFormedRule }
    | none => s1
  match system_prompt_append with
  | some spa =>
    if pyStrip spa = [] then s2
    else
      let existing := pyStrip s2.system_prompt_append
      { s2 with system_prompt_append :=
          if existing = [] then pyStrip spa else existing ++ _SEPARATOR ++ pyStrip spa }
  | none => s2

/-- `apply_patches_from_analysis` of patches.py: take `patches` from the
analysis report (`report.get("patches") or {}`), bail out on a non-dict,
and merge each present, well-typed part through `apply_patches_to_disk`;
the prompt part only when it is a non-blank string. -/
def apply_patches_from_analysis (store : PatchStore) (analysis_report : List (Str × PyVal)) :
    PatchStore :=
  let pRaw := (lookupL analysis_report patches_key).getD .pynone
  let p := if pRaw.truthy then pRaw else .dict []
  match p with
  | .dict pd =>
    let s1 :=
      match lookupL pd unit_mapping_key with
      | some (.dict um) => apply_patches_to_disk store (some um) none none
      | _ => store
    let s2 :=
      match lookupL pd cleanup_rules_key with
      | some (.list cr) => apply_patches_to_disk s1 none (some cr) none
      | _ => s1
    match lookupL pd system_prompt_append_key with
    | some (.str t) => if pyStrip t = [] then s2 else apply_patches_to_disk s2 none none (some t)
    | _ => s2
  | _ => store

/-- A row of the recipes table, restricted to the lifecycle fields the
pipeline reads and writes (timestamps other than parsed_at and the
immutable raw columns are not modelled). -/
structure RecipeRecord where
  status : String
  parsed_recipe : Option String
  error_type : Option String
  error_message : Option String
  error_traceback : Option String
  llm_response_text : Option String
  parsed_at : Option String
deriving DecidableEq

/-- `save_raw_recipe` of db.py: a fresh row has status 'new' and NULL in
every pipeline-written column. -/
def save_raw_recipe : RecipeRecord :=
  { status := "new", parsed_recipe := none, error_type := none, error_message := none,
    error_traceback := none, llm_response_text := none, parsed_at := none }

/-- `update_recipe_success` of db.py: set status 'success', store the
payload and the parse timestamp; no other column is touched. -/
def update_recipe_success (r : RecipeRecord) (parsed_recipe now : String) : RecipeRecord :=
  { r with status := "success", parsed_recipe := some parsed_recipe, parsed_at := some now }

/-- `update_recipe_failure` of db.py: set status 'failure' and overwrite
the four error columns (the raw LLM response may be NULL); no other column
is touched. -/
def update_recipe_failure (r : RecipeRecord) (error_type error_message error_traceback : String)
    (llm_response_text : Option String) : RecipeRecord :=
  { r with
      status := "failure"
      error_type := some error_type
      error_message := some error_message
      error_traceback := some error_traceback
      llm_response_text := llm_response_text }

/-- A lifecycle event after the initial save: the parse endpoint (or the
re-extraction inside the analyze endpoint) ends in `update_recipe_success`
or in `update_recipe_failure`. -/
inductive PipelineOp where
  | success (parsed_recipe now : String)
  | failure (error_type error_message error_traceback : String) (llm_response_text : Option String)
deriving DecidableEq

/-- Apply one lifecycle event to a record. -/
def applyOp (r : RecipeRecord) : PipelineOp → RecipeRecord
  | .success p now => update_recipe_success r p now
  | .failure et em tb lrt => update_recipe_failure r et em tb lrt

/-- Run a sequence of lifecycle events against a record. -/
def runOps (r : RecipeRecord) (ops : List PipelineOp) : RecipeRecord :=
  ops.foldl applyOp r

/-- Does the event write success? -/
def isSuccessOp : PipelineOp → Bool
  | .success _ _ => true
  | .failure _ _ _ _ => false

/-- Does the event write failure? -/
def isFailureOp : PipelineOp → Bool
  | .success _ _ => false
  | .failure _ _ _ _ => true

/-- The status written by an event. -/
def opStatus : PipelineOp → String
  | .success _ _ => "success"
  | .failure _ _ _ _ => "failure"

/-- The raw-response column after a scan from the right: the value supplied
by the most recent failure event, `none` when no failure occurred. -/
def firstFailureRawRev : List PipelineOp → Option String
  | [] => none
  | .failure _ _ _ lrt :: _ => lrt
  | .success _ _ :: rest => firstFailureRawRev rest

/-- The raw LLM response supplied by the last failure event of a history. -/
def lastFailureRaw (ops : List PipelineOp) : Option String :=
  firstFailureRawRev ops.reverse

/-- Outcome of the status gate at the head of `analyze_recipe_error`
(analysis_service.py): unknown id, wrong status (`ValueError`, surfaced by
the route as InvalidState/400), or proceed to the analysis model call. -/
inductive AnalyzeOutcome where
  | notFound
  | invalidState (status : String)
  | proceedToModel
deriving DecidableEq

/-- The precondition checks of `analyze_recipe_error`: the record must
exist and have status 'failure' before anything is sent to the analysis
model; the same check guards the /analyze route. -/
def analyze_recipe_error (record : Option RecipeRecord) : AnalyzeOutcome :=
  match record with
  | none => .notFound
  | some r => if r.status ≠ "failure" then .invalidState r.status else .proceedToModel

/-- Python dict item assignment `d[k] = v`: replace in place when the key
exists, else append a new entry. -/
def setKey {α : Type} : List (Str × α) → Str → α → List (Str × α)
  | [], k, v => [(k, v)]
  | (k0, v0) :: rest, k, v =>
    if k0 = k then (k, v) :: rest else (k0, v0) :: setKey rest k v

/-- The payload key `"source_url"`. -/
def source_url_key : Str := "source_url".toList

/-- The source-locator stamping step of `parse_recipe`
(backend/recipe_parser.py): when the parsed payload has no `source_url`
key, or its value is falsy, write the caller-supplied locator into it. -/
def stamp_source_url (llm_response : List (Str × PyVal)) (source_url : Str) :
    List (Str × PyVal) :=
  let needsStamp :=
    match lookupL llm_response source_url_key with
    | none => true
    | some v => !v.truthy
  if needsStamp then setKey llm_response source_url_key (.str source_url)
  else llm_response

/-- Decidable equality for `Except`, for evaluating the model on concrete
inputs. -/
instance exceptDecEq {ε α : Type} [DecidableEq ε] [DecidableEq α] : DecidableEq (Except ε α)
  | .ok a, .ok b =>
    if h : a = b then isTrue (by rw [h]) else isFalse (fun hc => h (Except.ok.inj hc))
  | .ok _, .error _ => isFalse Except.noConfusion
  | .error _, .ok _ => isFalse Except.noConfusion
  | .error a, .error b =>
    if h : a = b then isTrue (by rw [h]) else isFalse (fun hc => h (Except.error.inj hc))

theorem length_dropWhile_le {α : Type} (p : α → Bool) (l : List α) :
    (l.dropWhile p).length ≤ l.length := by
  induction l with
  | nil => simp
  | cons a l ih =>
    rw [List.dropWhile_cons]
    split
    · exact le_trans ih (by simp)
    · simp

theorem dropWhile_idem {α : Type} (p : α → Bool) (l : List α) :
    (l.dropWhile p).dropWhile p = l.dropWhile p := by
  induction l with
  | nil => rfl
  | cons a l ih =>
    rw [List.dropWhile_cons]
    split
    · exact ih
    · rw [List.dropWhile_cons]
      simp_all

theorem head_not_space_of_dropWhile_eq {p : Char → Bool} {l : Str} (h : l.dropWhile p = l) :
    ∀ c rest, l = c :: rest → p c = false := by
  intro c rest hl
  subst hl
  rw [List.dropWhile_cons] at h
  by_cases hc : p c = true
  · rw [if_pos hc] at h
    have := length_dropWhile_le p rest
    rw [h] at this
    simp at this
  · simpa using hc

theorem rstripPy_idem (l : Str) : rstripPy (rstripPy l) = rstripPy l := by
  induction l with
  | nil => rfl
  | cons c rest ih =>
    rw [rstripPy]
    cases hr : rstripPy rest with
    | nil =>
      by_cases hc : isPySpace c = true
      · simp [hc, rstripPy]
      · simp only [hc]
        rw [if_neg (by simp [hc]), rstripPy, rstripPy]
        simp [hc]
    | cons r0 rs =>
      rw [rstripPy, ← hr, ih, hr]

theorem dropWhile_rstripPy {l : Str} (h : l.dropWhile isPySpace = l) :
    (rstripPy l).dropWhile isPySpace = rstripPy l := by
  cases l with
  | nil => rfl
  | cons c rest =>
    have hc : isPySpace c = false := head_not_space_of_dropWhile_eq h c rest rfl
    rw [rstripPy]
    cases hr : rstripPy rest with
    | nil =>
      rw [if_neg (by simp [hc])]
      rw [List.dropWhile_cons, if_neg (by simp [hc])]
    | cons r0 rs =>
      rw [List.dropWhile_cons, if_neg (by simp [hc])]

theorem pyStrip_idem (s : Str) : pyStrip (pyStrip s) = pyStrip s := by
  unfold pyStrip
  rw [dropWhile_rstripPy (dropWhile_idem isPySpace s), rstripPy_idem]

theorem lookupL_mem {α : Type} {l : List (Str × α)} {k : Str} {v : α}
    (h : lookupL l k = some v) : (k, v) ∈ l := by
  induction l with
  | nil => simp [lookupL] at h
  | cons kv rest ih =>
    obtain ⟨k0, v0⟩ := kv
    rw [lookupL] at h
    by_cases hk : k0 = k
    · rw [if_pos hk] at h
      obtain rfl := Option.some.inj h
      subst hk
      exact List.mem_cons_self _ _
    · rw [if_neg hk] at h
      exact List.mem_cons_of_mem _ (ih h)

theorem partialLoop_mem {l : List (Str × Str)} {vl std : Str}
    (h : partialLoop l vl = some std) : ∃ k, (k, std) ∈ l := by
  induction l with
  | nil => simp [partialLoop] at h
  | cons kv rest ih =>
    obtain ⟨k0, v0⟩ := kv
    rw [partialLoop] at h
    split at h
    · obtain rfl := Option.some.inj h
      exact ⟨k0, List.mem_cons_self _ _⟩
    · obtain ⟨k, hk⟩ := ih h
      exact ⟨k, List.mem_cons_of_mem _ hk⟩

theorem lookupL_append {α : Type} (l₁ l₂ : List (Str × α)) (k : Str) :
    lookupL (l₁ ++ l₂) k = firstSome (lookupL l₁ k) (lookupL l₂ k) := by
  induction l₁ with
  | nil => simp [lookupL, firstSome]
  | cons kv rest ih =>
    obtain ⟨k0, v0⟩ := kv
    rw [List.cons_append, lookupL, lookupL]
    by_cases hk : k0 = k
    · simp [if_pos hk, firstSome]
    · simp only [if_neg hk]
      exact ih

theorem lookupL_mergeMap {α : Type} (base overlay : List (Str × α)) (k : Str) :
    lookupL (base.map (fun kv => (kv.1, (lookupL overlay kv.1).getD kv.2))) k
      = (lookupL base k).map (fun v => (lookupL overlay k).getD v) := by
  induction base with
  | nil => simp [lookupL]
  | cons kv rest ih =>
    obtain ⟨k0, v0⟩ := kv
    rw [List.map_cons, lookupL, lookupL]
    by_cases hk : k0 = k
    · subst hk
      simp
    · simp only [if_neg hk]
      exact ih

theorem lookupL_mergeFilter {α : Type} (base overlay : List (Str × α)) (k : Str) :
    lookupL (overlay.filter (fun kv => (lookupL base kv.1).isNone)) k
      = if (lookupL base k).isNone then lookupL overlay k else none := by
  induction overlay with
  | nil => simp [lookupL]
  | cons kv rest ih =>
    obtain ⟨k0, v0⟩ := kv
    rw [List.filter_cons]
    by_cases hk : k0 = k
    · subst hk
      by_cases hp : (lookupL base k0).isNone = true
      · simp [hp, lookupL, ih]
      · simp only [hp]
        simp only [Bool.false_eq_true, if_false]
        rw [ih, if_neg (by simp_all)]
    · by_cases hp : (lookupL base k0).isNone = true
      · simp only [hp, if_true, lookupL, if_neg hk]
        exact ih
      · simp only [hp]
        simp only [Bool.false_eq_true, if_false]
        rw [ih, lookupL, if_neg hk]

theorem dictMerge_lookup {α : Type} (base overlay : List (Str × α)) (k : Str) :
    lookupL (dictMerge base overlay) k = firstSome (lookupL overlay k) (lookupL base k) := by
  unfold dictMerge
  rw [lookupL_append, lookupL_mergeMap, lookupL_mergeFilter]
  cases hb : lookupL base k <;> cases ho : lookupL overlay k <;>
    simp [firstSome, Option.getD]

theorem lookupL_setKey {α : Type} (l : List (Str × α)) (k : Str) (v : α) :
    lookupL (setKey l k v) k = some v := by
  induction l with
  | nil => simp [setKey, lookupL]
  | cons kv rest ih =>
    obtain ⟨k0, v0⟩ := kv
    rw [setKey]
    by_cases hk : k0 = k
    · simp [if_pos hk, lookupL]
    · rw [if_neg hk, lookupL, if_neg hk]
      exact ih

theorem leadEq_iff_take (n : Str) : ∀ s : Str, leadEq n s = true ↔ s.take n.length = n := by
  induction n with
  | nil => intro s; simp [leadEq]
  | cons x xs ih =>
    intro s
    cases s with
    | nil => simp [leadEq]
    | cons y ys =>
      rw [leadEq]
      simp only [List.length_cons, List.take_succ_cons, List.cons.injEq]
      rw [Bool.and_eq_true, decide_eq_true_eq]
      constructor
      · rintro ⟨rfl, h2⟩
        exact ⟨rfl, (ih ys).mp h2⟩
      · rintro ⟨rfl, h2⟩
        exact ⟨rfl, (ih ys).mpr h2⟩

theorem applyRulesLoop_eq_spec (rsub : RegexSub) (rules : List CleanupRule) :
    ∀ t, applyRulesLoop rsub rules t = applyRulesSpec rsub rules t := by
  induction rules with
  | nil => intro t; rfl
  | cons r rest ih =>
    intro t
    rw [applyRulesLoop, applyRulesSpec, List.foldl_cons]
    rw [ih, applyRulesSpec]
    rcases hreg : r.regex
    · simp only [hreg, Bool.false_eq_true, if_false]
    · simp only [hreg, if_true]
      cases rsub r.pattern r.replacement t <;> simp [Option.getD]

theorem clean_llm_response_eq_spec (rsub : RegexSub) (rules : List CleanupRule) (raw : Str) :
    clean_llm_response rsub rules raw = cleanSpec rsub rules raw := by
  have hjson : ("```json".toList : Str).length = 7 := rfl
  have hfence : ("```".toList : Str).length = 3 := rfl
  have hfencer : (("```".toList : Str).reverse).length = 3 := rfl
  unfold clean_llm_response cleanSpec cleanedText stripFencesSpec
  simp only [applyRulesLoop_eq_spec, leadEq_iff_take, hjson, hfence, hfencer, List.isEmpty_iff]

theorem lookupL_eq_find {α : Type} (m : List (Str × α)) (k : Str) :
    lookupL m k = (m.find? (fun kv => kv.1 == k)).map Prod.snd := by
  induction m with
  | nil => simp [lookupL]
  | cons kv rest ih =>
    obtain ⟨k0, v0⟩ := kv
    rw [lookupL, List.find?_cons]
    by_cases hk : k0 = k
    · subst hk
      simp
    · simp only [if_neg hk]
      have : (k0 == k) = false := by simpa using hk
      rw [this]
      exact ih

theorem partialLoop_eq_find (m : List (Str × Str)) (vl : Str) :
    partialLoop m vl
      = (m.find? (fun kv => decide (2 < kv.1.length) && containsSub vl kv.1)).map Prod.snd := by
  induction m with
  | nil => simp [partialLoop]
  | cons kv rest ih =>
    obtain ⟨k0, v0⟩ := kv
    rw [partialLoop, List.find?_cons]
    by_cases h1 : 2 < k0.length
    · by_cases h2 : containsSub vl k0 = true
      · rw [if_pos ⟨h1, h2⟩]
        simp [h1, h2]
      · rw [if_neg (by tauto)]
        have h2' : containsSub vl k0 = false := by simpa using h2
        simp [h2', ih]
    · rw [if_neg (by tauto)]
      have h1' : decide (2 < k0.length) = false := by simpa using h1
      simp [h1', ih]

/-- The two calls of `normalize_unit` agree on a pre-stripped input: the
function strips first, and stripping is idempotent. -/
theorem normalize_unit_pyStrip (m : List (Str × Str)) (u : Str) :
    normalize_unit m (pyStrip u) = normalize_unit m u := by
  unfold normalize_unit
  rw [pyStrip_idem]

theorem runOps_concat (r : RecipeRecord) (ops : List PipelineOp) (op : PipelineOp) :
    runOps r (ops ++ [op]) = applyOp (runOps r ops) op := by
  unfold runOps
  rw [List.foldl_append]
  rfl

theorem lastFailureRaw_concat (ops : List PipelineOp) (op : PipelineOp) :
    lastFailureRaw (ops ++ [op])
      = (match op with
         | .failure _ _ _ lrt => lrt
         | .success _ _ => lastFailureRaw ops) := by
  unfold lastFailureRaw
  rw [List.reverse_append]
  cases op with
  | success p now => rfl
  | failure et em tb lrt => rfl

/-- C2 (counterexample): `parse_amount("-1")` does fail, but not with the
NegativeAmount error kind: "-1" contains a hyphen, is split into the two
parts "" and "1", the range attempt raises on `float("")`, and the fallback
`float("")` raises the bare conversion error, which propagates uncaught. -/
theorem parse_amount_negative_one_not_negative_kind :
    parse_amount (.str "-1".toList) ≠ .error AmountError.negative
    ∧ parse_amount (.str "-1".toList) = .error (AmountError.floatConv []) := by
  constructor
  · intro h
    rw [show parse_amount (.str "-1".toList) = .error (AmountError.floatConv []) from rfl] at h
    injection h with h2
    cases h2
  · rfl

/-- C2 (amended): the reference values of the amount coercion.
`parse_amount("2-3") = 2.5` (mean of the range), `parse_amount("0,5") = 0.5`
(decimal comma), `parse_amount("по вкусу") = 0`, `parse_amount("") = 0`,
and `parse_amount("2-x") = 2` (first-bound fallback when the second bound
fails to parse); but `parse_amount("-1")` fails with a bare float-conversion
error on the empty first range part, not with NegativeAmount. -/
theorem parse_amount_reference_values :
    parse_amount (.str "2-3".toList) = .ok ((5 : ℚ) / 2)
    ∧ parse_amount (.str "0,5".toList) = .ok ((1 : ℚ) / 2)
    ∧ parse_amount (.str "по вкусу".toList) = .ok 0
    ∧ parse_amount (.str "".toList) = .ok 0
    ∧ parse_amount (.str "2-x".toList) = .ok 2
    ∧ parse_amount (.str "-1".toList) = .error (AmountError.floatConv []) := by
  refine ⟨?_, ?_, by decide, by decide, ?_, by decide⟩
  · rw [show parse_amount (.str "2-3".toList)
        = rangeBranch (pyStrip "2".toList) (pyStrip "3".toList) from rfl]
    rw [show pyStrip "2".toList = "2".toList from rfl,
      show pyStrip "3".toList = "3".toList from rfl]
    rw [rangeBranch]
    rw [show pyFloat "2".toList = some ((1 : ℚ) * ((2 : ℕ) : ℚ) / (10 : ℚ) ^ (0 : ℕ)) from rfl]
    rw [show pyFloat "3".toList = some ((1 : ℚ) * ((3 : ℕ) : ℚ) / (10 : ℚ) ^ (0 : ℕ)) from rfl]
    norm_num
  · rw [show parse_amount (.str "0,5".toList) = directFloat "0.5".toList from rfl]
    rw [directFloat]
    rw [show pyFloat "0.5".toList = some ((1 : ℚ) * ((5 : ℕ) : ℚ) / (10 : ℚ) ^ (1 : ℕ)) from rfl]
    norm_num
  · rw [show parse_amount (.str "2-x".toList) = rangeFallback "2".toList from rfl]
    rw [rangeFallback]
    rw [show pyFloat "2".toList = some ((1 : ℚ) * ((2 : ℕ) : ℚ) / (10 : ℚ) ^ (0 : ℕ)) from rfl]
    norm_num

/-- C10: the unit pre-validator is total over non-string values — a number,
a boolean, null, a list or a nested object passed as the ingredient unit is
returned unchanged, for every unit mapping in effect, so unit normalization
itself never aborts an extraction on a non-string unit. -/
theorem normalize_unit_value_non_string_identity (m : List (Str × Str)) :
    normalize_unit_value m .pynone = .pynone
    ∧ (∀ b, normalize_unit_value m (.bool b) = .bool b)
    ∧ (∀ n, normalize_unit_value m (.int n) = .int n)
    ∧ (∀ q, normalize_unit_value m (.float q) = .float q)
    ∧ (∀ items, normalize_unit_value m (.list items) = .list items)
    ∧ (∀ entries, normalize_unit_value m (.dict entries) = .dict entries) :=
  ⟨rfl, fun _ => rfl, fun _ => rfl, fun _ => rfl, fun _ => rfl, fun _ => rfl⟩

/-- C7: diagnosis requires the failed status — for every stored record, the
gate of `analyze_recipe_error` proceeds to the analysis model call exactly
when the status is 'failure', and reports InvalidState (with the offending
status) exactly otherwise; in particular a freshly saved record (status
'new') and a record after a success update are rejected. -/
theorem analyze_recipe_error_requires_failure (r : RecipeRecord) (p now : String) :
    (analyze_recipe_error (some r) = .proceedToModel ↔ r.status = "failure")
    ∧ (analyze_recipe_error (some r) = .invalidState r.status ↔ r.status ≠ "failure")
    ∧ analyze_recipe_error (some save_raw_recipe) = .invalidState "new"
    ∧ analyze_recipe_error (some (update_recipe_success r p now)) = .invalidState "success" := by
  refine ⟨?_, ?_, by decide, ?_⟩
  · by_cases h : r.status = "failure"
    · simp [analyze_recipe_error, h]
    · simp [analyze_recipe_error, h]
  · by_cases h : r.status = "failure"
    · simp [analyze_recipe_error, h]
    · simp [analyze_recipe_error, h]
  · simp [analyze_recipe_error, update_recipe_success]

/-- C8 (counterexample): when the caller-supplied source locator is itself
empty and the payload has none, the stamped payload carries an *empty*
source locator — the stamped value is falsy, refuting "the returned payload
always carries a non-empty source locator". -/
theorem stamp_source_url_empty_locator :
    lookupL (stamp_source_url [] []) source_url_key = some (.str [])
    ∧ (PyVal.str []).truthy = false :=
  ⟨rfl, rfl⟩

/-- C8 (amended): the stamping step of `parse_recipe` always leaves a
`source_url` entry in the payload; a payload whose own locator is truthy is
returned untouched; and the stamped locator is truthy (in particular
non-empty) whenever the caller-supplied locator is non-empty — but with an
empty caller-supplied locator the stamped value is the empty string. -/
theorem stamp_source_url_stamps_when_absent (payload : List (Str × PyVal)) (source_url : Str) :
    (lookupL (stamp_source_url payload source_url) source_url_key).isSome = true
    ∧ ((match lookupL payload source_url_key with
        | some v => v.truthy
        | none => false) = true → stamp_source_url payload source_url = payload)
    ∧ (source_url ≠ [] →
        (match lookupL (stamp_source_url payload source_url) source_url_key with
         | some v => v.truthy
         | none => false) = true) := by
  refine ⟨?_, ?_, ?_⟩
  · cases hl : lookupL payload source_url_key with
    | none => simp [stamp_source_url, hl, lookupL_setKey]
    | some v =>
      by_cases hv : v.truthy = true
      · simp [stamp_source_url, hl, hv]
      · have hv' : v.truthy = false := by simpa using hv
        simp [stamp_source_url, hl, hv', lookupL_setKey]
  · intro h
    cases hl : lookupL payload source_url_key with
    | none => simp [hl] at h
    | some v =>
      rw [hl] at h
      have h' : v.truthy = true := by simpa using h
      simp [stamp_source_url, hl, h']
  · intro hurl
    cases hl : lookupL payload source_url_key with
    | none => simp [stamp_source_url, hl, lookupL_setKey, PyVal.truthy, hurl]
    | some v =>
      by_cases hv : v.truthy = true
      · simp [stamp_source_url, hl, hv]
      · have hv' : v.truthy = false := by simpa using hv
        rw [show stamp_source_url payload source_url
            = setKey payload source_url_key (.str source_url) by
          simp [stamp_source_url, hl, hv']]
        rw [lookupL_setKey]
        simp [PyVal.truthy, hurl]

/-- C8 (witness): the amended stamping theorem applied to the empty payload
and a concrete non-empty locator. -/
theorem stamp_source_url_stamps_witness :
    ("http://x".toList ≠ ([] : Str))
    ∧ (match lookupL (stamp_source_url [] "http://x".toList) source_url_key with
       | some v => v.truthy
       | none => false) = true :=
  ⟨by decide, (stamp_source_url_stamps_when_absent [] "http://x".toList).2.2 (by decide)⟩

/-- Helper for C5: the source loop of `normalize_unit` agrees with the
`List.find?` formulation of the spec. -/
theorem normalize_unit_eq_normalizeUnitSpec (m : List (Str × Str)) (u : Str) :
    normalize_unit m u = normalizeUnitSpec m u := by
  simp only [normalize_unit, normalizeUnitSpec]
  rw [lookupL_eq_find, partialLoop_eq_find]
  cases m.find? (fun kv => kv.1 == pyLower (pyStrip u)) with
  | some kv => simp
  | none =>
    simp only [Option.map_none']
    cases m.find? (fun kv => decide (2 < kv.1.length) && containsSub (pyLower (pyStrip u)) kv.1) with
    | some kv => simp
    | none => simp

/-- C3 (counterexample): with the patch overlay `{"qqq": "грамм"}` merged
over the base vocabulary — an overlay value that is itself an alias, not a
canonical token — normalization is not idempotent: "qqq" normalizes to
"грамм", which normalizes further to "г". -/
theorem normalize_unit_not_idempotent_with_overlay :
    normalize_unit (_get_unit_mapping [("qqq".toList, "грамм".toList)]) "qqq".toList
      = "грамм".toList
    ∧ normalize_unit (_get_unit_mapping [("qqq".toList, "грамм".toList)]) "грамм".toList
      = "г".toList
    ∧ normalize_unit (_get_unit_mapping [("qqq".toList, "грамм".toList)])
        (normalize_unit (_get_unit_mapping [("qqq".toList, "грамм".toList)]) "qqq".toList)
      ≠ normalize_unit (_get_unit_mapping [("qqq".toList, "грамм".toList)]) "qqq".toList := by
  refine ⟨by decide, by decide, by decide⟩

/-- C3 (amended): unit normalization is idempotent for every unit string
*provided* every value of the unit mapping in effect is itself a fixed
point of normalization.  This holds for the base vocabulary (whose values
are the canonical tokens), but an arbitrary patch-overlay snapshot can
break it by mapping a key to a non-canonical spelling. -/
theorem normalize_unit_idempotent_of_fixed_values (m : List (Str × Str))
    (hfix : ∀ kv ∈ m, normalize_unit m kv.2 = kv.2) (u : Str) :
    normalize_unit m (normalize_unit m u) = normalize_unit m u := by
  cases hex : lookupL m (pyLower (pyStrip u)) with
  | some std =>
    have h1 : normalize_unit m u = std := by
      simp only [normalize_unit]
      rw [hex]
    rw [h1]
    exact hfix (pyLower (pyStrip u), std) (lookupL_mem hex)
  | none =>
    cases hp : partialLoop m (pyLower (pyStrip u)) with
    | some std =>
      have h1 : normalize_unit m u = std := by
        simp only [normalize_unit]
        rw [hex, hp]
      rw [h1]
      obtain ⟨k, hk⟩ := partialLoop_mem hp
      exact hfix (k, std) hk
    | none =>
      have h1 : normalize_unit m u = pyStrip u := by
        simp only [normalize_unit]
        rw [hex, hp]
      rw [h1, normalize_unit_pyStrip, h1]

/-- C3 (witness): the amended idempotence theorem applied to the mapping in
effect with an empty overlay (the base vocabulary) at a concrete unit
string. -/
theorem normalize_unit_idempotent_witness :
    (∀ kv ∈ _get_unit_mapping [], normalize_unit (_get_unit_mapping []) kv.2 = kv.2)
    ∧ normalize_unit (_get_unit_mapping [])
        (normalize_unit (_get_unit_mapping []) "Ст. Ложки".toList)
      = normalize_unit (_get_unit_mapping []) "Ст. Ложки".toList :=
  ⟨by decide, normalize_unit_idempotent_of_fixed_values _ (by decide) _⟩

/-- C5: unit coercion behaves as the spec words it — for any patch-overlay
snapshot, the mapping in effect is the base vocabulary merged with the
overlay, the overlay winning on key collision (first conjunct); a unit
string is trimmed and case-folded, matched exactly against the mapping
first, else by substring containment against mapping keys longer than two
characters in stable mapping iteration order (first match wins), and is
otherwise passed through trimmed and unchanged, never rejected (second
conjunct, by the `List.find?` formulation `normalizeUnitSpec`; third
conjunct: the pass-through case). -/
theorem normalize_unit_matches_spec (overlay : List (Str × Str)) (u k : Str) :
    lookupL (_get_unit_mapping overlay) k
      = firstSome (lookupL overlay k) (lookupL BASE_UNIT_MAPPING k)
    ∧ normalize_unit (_get_unit_mapping overlay) u
        = normalizeUnitSpec (_get_unit_mapping overlay) u
    ∧ (lookupL (_get_unit_mapping overlay) (pyLower (pyStrip u)) = none →
        partialLoop (_get_unit_mapping overlay) (pyLower (pyStrip u)) = none →
        normalize_unit (_get_unit_mapping overlay) u = pyStrip u) := by
  refine ⟨dictMerge_lookup _ _ _, normalize_unit_eq_normalizeUnitSpec _ _, ?_⟩
  intro hex hp
  simp only [normalize_unit]
  rw [hex, hp]

/-- C5 (witness): the pass-through conjunct applied to a unit string that
matches nothing in the base vocabulary. -/
theorem normalize_unit_matches_spec_witness :
    lookupL (_get_unit_mapping []) (pyLower (pyStrip "пучок".toList)) = none
    ∧ partialLoop (_get_unit_mapping []) (pyLower (pyStrip "пучок".toList)) = none
    ∧ normalize_unit (_get_unit_mapping []) "пучок".toList = pyStrip "пучок".toList :=
  ⟨by decide, by decide,
    (normalize_unit_matches_spec [] "пучок".toList []).2.2 (by decide) (by decide)⟩

/-- C4: the response-cleaner contract.  For every stored rule list, every
regex-engine behaviour and every input: cleaning fails with EmptyInput
exactly on the empty input; otherwise the text is trimmed, fence markers
stripped, the stored rules applied in append order (literal replacement by
default, oracle substitution when flagged with malformed patterns skipped —
this is `cleanSpec`/`cleanedText`), and the pass fails with
EmptyAfterCleanup exactly when the processed text is empty; the fenced
example cleans to its JSON body. -/
theorem clean_llm_response_contract (rsub : RegexSub) (rules : List CleanupRule) (raw : Str) :
    (clean_llm_response rsub rules raw = .error .emptyInput ↔ raw = [])
    ∧ (clean_llm_response rsub rules raw = .error .emptyAfterCleanup
        ↔ (raw ≠ [] ∧ cleanedText rsub rules raw = []))
    ∧ clean_llm_response rsub rules raw = cleanSpec rsub rules raw
    ∧ (raw ≠ [] → cleanedText rsub rules raw ≠ [] →
        clean_llm_response rsub rules raw = .ok (cleanedText rsub rules raw))
    ∧ clean_llm_response rsub [] ("```json\n\x7b\"a\":1\x7d\n```".toList)
        = .ok ("\x7b\"a\":1\x7d".toList) := by
  refine ⟨?_, ?_, clean_llm_response_eq_spec rsub rules raw, ?_, rfl⟩
  · rw [clean_llm_response_eq_spec]
    unfold cleanSpec
    by_cases h : raw = []
    · simp [h]
    · rw [if_neg (by simpa [List.isEmpty_iff] using h)]
      by_cases h2 : cleanedText rsub rules raw = []
      · simp [h2, List.isEmpty_iff, h]
      · rw [if_neg (by simpa [List.isEmpty_iff] using h2)]
        simp [h]
  · rw [clean_llm_response_eq_spec]
    unfold cleanSpec
    by_cases h : raw = []
    · simp [h]
    · rw [if_neg (by simpa [List.isEmpty_iff] using h)]
      by_cases h2 : cleanedText rsub rules raw = []
      · simp [h2, List.isEmpty_iff, h]
      · rw [if_neg (by simpa [List.isEmpty_iff] using h2)]
        simp [h, h2]
  · intro h h2
    rw [clean_llm_response_eq_spec]
    unfold cleanSpec
    rw [if_neg (by simpa [List.isEmpty_iff] using h),
      if_neg (by simpa [List.isEmpty_iff] using h2)]

/-- C4 (witness): the success conjunct of the cleaner contract applied to a
concrete fenced input with no rules. -/
theorem clean_llm_response_contract_witness :
    ("```json\nx\n```".toList ≠ ([] : Str))
    ∧ cleanedText (fun _ _ _ => none) [] ("```json\nx\n```".toList) ≠ []
    ∧ clean_llm_response (fun _ _ _ => none) [] ("```json\nx\n```".toList)
        = .ok (cleanedText (fun _ _ _ => none) [] ("```json\nx\n```".toList)) :=
  ⟨by decide, by decide,
    (clean_llm_response_contract (fun _ _ _ => none) [] ("```json\nx\n```".toList)).2.2.2.1
      (by decide) (by decide)⟩

/-- C6: patch merging is monotone.  For every patch-store state and every
applied patch set: the merged unit mapping answers every key from the new
overlay when the overlay has it and from the old mapping otherwise, so no
entry is deleted and only colliding keys are replaced; and the stored
cleanup-rule list after merging is exactly the old list with the well-formed
new rules appended, preserving the relative order of the old rules. -/
theorem apply_patches_to_disk_monotone (store : PatchStore)
    (um : Option (List (Str × PyVal))) (cr : Option (List PyVal))
    (spa : Option Str) (k : Str) :
    lookupL (apply_patches_to_disk store um cr spa).unit_mapping k
      = firstSome (lookupL (um.getD []) k) (lookupL store.unit_mapping k)
    ∧ (apply_patches_to_disk store um cr spa).cleanup_rules
      = store.cleanup_rules ++ (cr.getD []).filter wellFormedRule := by
  cases um with
  | none =>
    cases cr with
    | none =>
      cases spa with
      | none => simp [apply_patches_to_disk, lookupL, firstSome]
      | some s =>
        simp only [apply_patches_to_disk]
        split <;> simp [lookupL, firstSome]
    | some crl =>
      cases spa with
      | none => simp [apply_patches_to_disk, lookupL, firstSome]
      | some s =>
        simp only [apply_patches_to_disk]
        split <;> simp [lookupL, firstSome]
  | some uml =>
    cases cr with
    | none =>
      cases spa with
      | none => simp [apply_patches_to_disk, dictMerge_lookup, lookupL, firstSome]
      | some s =>
        simp only [apply_patches_to_disk]
        split <;> simp [dictMerge_lookup, lookupL, firstSome]
    | some crl =>
      cases spa with
      | none => simp [apply_patches_to_disk, dictMerge_lookup, lookupL, firstSome]
      | some s =>
        simp only [apply_patches_to_disk]
        split <;> simp [dictMerge_lookup, lookupL, firstSome]

/-- C9: applying patches from an analysis report never fails the caller and
never touches the store on advisory garbage.  When the `patches` entry is
absent, null, falsy or not a JSON object, the store is returned unchanged;
and when a patch set carries a cleanup-rules list, the malformed entries
(non-objects, or objects missing `pattern` or `replacement`) are dropped
while the well-formed ones are appended to the store. -/
theorem apply_patches_from_analysis_advisory (store : PatchStore)
    (report : List (Str × PyVal)) (crl : List PyVal) :
    ((∀ d, lookupL report patches_key ≠ some (.dict d)) →
        apply_patches_from_analysis store report = store)
    ∧ apply_patches_from_analysis store
        [(patches_key, .dict [(cleanup_rules_key, .list crl)])]
      = { store with cleanup_rules := store.cleanup_rules ++ crl.filter wellFormedRule } := by
  have hum : unit_mapping_key ≠ cleanup_rules_key := by decide
  have hspa : system_prompt_append_key ≠ cleanup_rules_key := by decide
  constructor
  · intro h
    cases hl : lookupL report patches_key with
    | none => simp [apply_patches_from_analysis, hl, PyVal.truthy, lookupL]
    | some v =>
      cases v with
      | dict d => exact absurd hl (h d)
      | pynone => simp [apply_patches_from_analysis, hl, PyVal.truthy, lookupL]
      | bool b =>
        cases b <;> simp [apply_patches_from_analysis, hl, PyVal.truthy, lookupL]
      | int n =>
        by_cases hn : n = 0 <;>
          simp [apply_patches_from_analysis, hl, PyVal.truthy, lookupL, hn]
      | float q =>
        by_cases hq : q = 0 <;>
          simp [apply_patches_from_analysis, hl, PyVal.truthy, lookupL, hq]
      | str s =>
        by_cases hs : s = [] <;>
          simp [apply_patches_from_analysis, hl, PyVal.truthy, lookupL, hs]
      | list items =>
        cases items <;> simp [apply_patches_from_analysis, hl, PyVal.truthy, lookupL]
  · simp [apply_patches_from_analysis, lookupL, PyVal.truthy, hum, hspa,
      apply_patches_to_disk]

/-- C9 (witness): the unchanged-store conjunct applied to a concrete store
and a report whose `patches` entry is a (truthy, non-object) string. -/
theorem apply_patches_from_analysis_advisory_witness :
    apply_patches_from_analysis ⟨[], [], []⟩ [(patches_key, .str "x".toList)] = ⟨[], [], []⟩ :=
  (apply_patches_from_analysis_advisory ⟨[], [], []⟩ [(patches_key, .str "x".toList)] []).1
    (fun d h => by
      rw [show lookupL [(patches_key, PyVal.str "x".toList)] patches_key
          = some (PyVal.str "x".toList) from by simp [lookupL]] at h
      simp at h)

/-- C1 (counterexample): a record that fails and then succeeds on
re-extraction ends with status 'success' but still carries the stale error
fields — `update_recipe_success` sets only status, payload and timestamps
and never clears the error columns, refuting "error fields are present iff
the status is failed". -/
theorem recipe_lifecycle_invariant_counterexample :
    (runOps save_raw_recipe
        [PipelineOp.failure "JSONDecodeError" "boom" "tb" (some "raw"),
         PipelineOp.success "payload" "t1"]).status = "success"
    ∧ (runOps save_raw_recipe
        [PipelineOp.failure "JSONDecodeError" "boom" "tb" (some "raw"),
         PipelineOp.success "payload" "t1"]).error_type = some "JSONDecodeError"
    ∧ ¬ ((runOps save_raw_recipe
          [PipelineOp.failure "JSONDecodeError" "boom" "tb" (some "raw"),
           PipelineOp.success "payload" "t1"]).error_type.isSome
        ↔ (runOps save_raw_recipe
            [PipelineOp.failure "JSONDecodeError" "boom" "tb" (some "raw"),
             PipelineOp.success "payload" "t1"]).status = "failure") := by
  refine ⟨by decide, by decide, by decide⟩

/-- C1 (amended): the lifecycle fields after any event history from a fresh
record.  The status is 'new' with no events and otherwise follows the last
event; the payload is present iff some success update occurred; the error
kind, message and trace are present iff some failure update occurred (they
are never cleared by a later success); and the raw model response equals
whatever the most recent failure update supplied (possibly nothing).  In
particular a record that succeeds on re-extraction after a prior failure
ends with status 'success' and its payload present, but retains the stale
error fields. -/
theorem recipe_lifecycle_fields (ops : List PipelineOp) :
    (runOps save_raw_recipe ops).parsed_recipe.isSome = ops.any isSuccessOp
    ∧ (runOps save_raw_recipe ops).error_type.isSome = ops.any isFailureOp
    ∧ (runOps save_raw_recipe ops).error_message.isSome = ops.any isFailureOp
    ∧ (runOps save_raw_recipe ops).error_traceback.isSome = ops.any isFailureOp
    ∧ (runOps save_raw_recipe ops).llm_response_text = lastFailureRaw ops
    ∧ (runOps save_raw_recipe ops).status
        = (match ops.getLast? with
           | none => "new"
           | some op => opStatus op) := by
  induction ops using List.reverseRecOn with
  | nil => exact ⟨rfl, rfl, rfl, rfl, rfl, rfl⟩
  | append_singleton l op ih =>
    obtain ⟨h1, h2, h3, h4, h5, h6⟩ := ih
    rw [runOps_concat, lastFailureRaw_concat, List.getLast?_concat]
    cases op with
    | success p now =>
      refine ⟨?_, ?_, ?_, ?_, ?_, ?_⟩ <;>
        simp [applyOp, update_recipe_success, h1, h2, h3, h4, h5, h6,
          isSuccessOp, isFailureOp, opStatus, List.any_append]
    | failure et em tb lrt =>
      refine ⟨?_, ?_, ?_, ?_, ?_, ?_⟩ <;>
        simp [applyOp, update_recipe_failure, h1, h2, h3, h4, h5, h6,
          isSuccessOp, isFailureOp, opStatus, List.any_append]
